import Mathlib

/-!
Verification of the core logic of `builder-reimage.py`, a MAAS
(bare-metal provisioning) command-line automation tool.  The source's
core procedures are shallowly embedded here:

* `connect_maas`  - connect with bounded retries, fixed 2-second backoff,
  fatal `sys.exit(1)` after the last attempt;
* `wait_for_status` - poll a machine's status every 10 seconds until it
  matches an expected value (case-insensitively) or a timeout elapses;
* `find_last_deployed_machine` - scan all machines, extract best-effort
  timestamps from a priority list of optional attributes, pick the most
  recent deployed machine, falling back to the first deployed machine;
* `deploy_machine` / `redeploy_machine` - the deploy and redeploy
  sequencing, modelled as functions from an environment (the remote
  machine list and the outcomes of status waits) to the list of calls
  and log messages they emit, in order.

Remote I/O is modelled by explicit environments: the machine list stands
for `client.machines.list()`, and sequencer-level status waits are
oracle outcomes.  Python dynamic typing matters in one place: the source
passes a machine *object* where `deploy_machine` expects a hostname
string; the embedding keeps that distinction (`NameArg`).
-/

namespace BuilderReimage

/-- A value found in one of the optional timestamp attributes of a machine
object: an ISO text timestamp, an already-structured `datetime` (represented
by its chronological key), a numeric epoch value, or some other object on
which `float(...)` raises. -/
inductive AttrVal where
  | str (s : String)
  | dt (t : Int)
  | num (n : Int)
  | other
deriving DecidableEq

/-- Python truthiness of an attribute value (`if not val: continue`):
`""` and `0` are falsy, a `datetime` object and other objects are truthy. -/
def pyTruthyVal : AttrVal → Bool
  | .str s => s != ""
  | .dt _ => true
  | .num n => n != 0
  | .other => true

/-- Python truthiness of `getattr(m, attr, None)`: `None` is falsy. -/
def pyTruthy : Option AttrVal → Bool
  | none => false
  | some v => pyTruthyVal v

/-- Python's `str.lower()` (the statuses compared are ASCII), written as a
structural map over the characters so that proofs can evaluate it. -/
def pyLower (s : String) : String :=
  String.mk (s.data.map Char.toLower)

/-- The names of the timestamp attributes probed by
`find_last_deployed_machine`, as an enumeration. -/
inductive TsAttr where
  | deploymentStartedAt
  | deployedAt
  | deploymentFinishedAt
  | commissioningFinishedAt
  | lastUpdated
  | updatedAt
  | createdAt
  | created
deriving DecidableEq

/-- A machine record as the tool reads it from the MAAS API: identifier,
hostname, lifecycle status, optional OS distro label and the optional
timestamp attributes (any subset absent). -/
structure Machine where
  hostname : String
  system_id : String
  status_name : String
  distro_series : Option String := none
  deployment_started_at : Option AttrVal := none
  deployed_at : Option AttrVal := none
  deployment_finished_at : Option AttrVal := none
  commissioning_finished_at : Option AttrVal := none
  last_updated : Option AttrVal := none
  updated_at : Option AttrVal := none
  created_at : Option AttrVal := none
  created : Option AttrVal := none
deriving DecidableEq

/-- `getattr(m, attr, None)` for the probed timestamp attributes. -/
def getTsAttr (m : Machine) : TsAttr → Option AttrVal
  | .deploymentStartedAt => m.deployment_started_at
  | .deployedAt => m.deployed_at
  | .deploymentFinishedAt => m.deployment_finished_at
  | .commissioningFinishedAt => m.commissioning_finished_at
  | .lastUpdated => m.last_updated
  | .updatedAt => m.updated_at
  | .createdAt => m.created_at
  | .created => m.created

/-- The source's `timestamp_attrs` list, in its exact order. -/
def timestamp_attrs : List TsAttr :=
  [.deploymentStartedAt, .deployedAt, .deploymentFinishedAt,
   .commissioningFinishedAt, .lastUpdated, .updatedAt, .createdAt, .created]

/-- The value of one decimal digit character, `none` otherwise. -/
def digitVal : Char → Option Nat
  | c => if c.isDigit then some (c.toNat - 48) else none

/-- A list of digit characters as a number; `none` if empty or non-digit. -/
def natOfDigits : List Char → Option Nat
  | [] => none
  | cs => cs.foldl (fun acc c => match acc, digitVal c with
      | some n, some d => some (n * 10 + d)
      | _, _ => none) (some 0)

/-- Whether a year is a leap year (Gregorian calendar). -/
def isLeapYear (y : Nat) : Bool :=
  y % 4 == 0 && (y % 100 != 0 || y % 400 == 0)

/-- Days in a month of a given year. -/
def daysInMonth (y m : Nat) : Nat :=
  if m == 2 then (if isLeapYear y then 29 else 28)
  else if m == 4 || m == 6 || m == 9 || m == 11 then 30
  else 31

/-- Days from 1970-01-01 to year/month/day (proleptic Gregorian, the
standard civil-from-days construction), for year at least 1. -/
def daysFromCivil (y m d : Nat) : Int :=
  let yAdj : Nat := if m ≤ 2 then y - 1 else y
  let era : Nat := yAdj / 400
  let yoe : Nat := yAdj - era * 400
  let mp : Nat := if m > 2 then m - 3 else m + 9
  let doy : Nat := (153 * mp + 2) / 5 + d - 1
  let doe : Nat := yoe * 365 + yoe / 4 - yoe / 100 + doy
  (era * 146097 + doe : Int) - 719468

/-- Modelled from the Python standard library: `datetime.fromisoformat`,
restricted to the `YYYY-MM-DD` and `YYYY-MM-DD<sep>HH:MM:SS` shapes the
tool's data uses.  The result is the chronological key of the parsed
datetime (seconds since the epoch); `none` models a raised `ValueError`. -/
def fromisoformat (s : String) : Option Int :=
  match s.data with
  | y1 :: y2 :: y3 :: y4 :: '-' :: m1 :: m2 :: '-' :: d1 :: d2 :: rest => do
      let y ← natOfDigits [y1, y2, y3, y4]
      let mo ← natOfDigits [m1, m2]
      let d ← natOfDigits [d1, d2]
      let tod ← match rest with
        | [] => some 0
        | _ :: h1 :: h2 :: ':' :: i1 :: i2 :: ':' :: s1 :: s2 :: [] => do
            let h ← natOfDigits [h1, h2]
            let mi ← natOfDigits [i1, i2]
            let sec ← natOfDigits [s1, s2]
            if h ≤ 23 && mi ≤ 59 && sec ≤ 59 then some (h * 3600 + mi * 60 + sec)
            else none
        | _ => none
      if 1 ≤ y && y ≤ 9999 && 1 ≤ mo && mo ≤ 12 && 1 ≤ d && d ≤ daysInMonth y mo then
        some (daysFromCivil y mo d * 86400 + (tod : Int))
      else none
  | _ => none

/-- The `try` body of the source's timestamp extraction: an ISO string is
parsed with `fromisoformat`, a `datetime` is taken as-is, anything else goes
through `float(...)` then `fromtimestamp` (raising - `none` - when the value
is not numeric). -/
def parseVal : AttrVal → Option Int
  | .str s => fromisoformat s
  | .dt t => some t
  | .num n => some n
  | .other => none

/-- The contribution of one probed attribute: `none` when the attribute is
absent or falsy, or when parsing it fails. -/
def tsOfAttr (m : Machine) (a : TsAttr) : Option Int :=
  match getTsAttr m a with
  | none => none
  | some v => if pyTruthyVal v then parseVal v else none

/-- The source's per-machine attribute loop, with its loop-carried `ts`
variable: a falsy attribute is skipped (`continue`), a successful parse
breaks out, a parse failure resets `ts` to `None` and moves to the next
attribute name. -/
def extractTsLoop (m : Machine) : List TsAttr → Option Int → Option Int
  | [], ts => ts
  | a :: rest, ts =>
    match getTsAttr m a with
    | none => extractTsLoop m rest ts
    | some v =>
      if pyTruthyVal v then
        match parseVal v with
        | some t => some t
        | none => extractTsLoop m rest none
      else extractTsLoop m rest ts

/-- The timestamp `find_last_deployed_machine` associates to a machine. -/
def extractTs (m : Machine) : Option Int :=
  extractTsLoop m timestamp_attrs none

/-- `getattr(m, "status_name", "").lower() == "deployed"`. -/
def statusDeployed (m : Machine) : Bool :=
  pyLower m.status_name == "deployed"

/-- The `(ts, machine)` pairs the selector's first loop appends: one per
machine in Deployed state, in listing order. -/
def deployedCandidates (machines : List Machine) : List (Option Int × Machine) :=
  (machines.filter statusDeployed).map (fun m => (extractTs m, m))

/-- The candidates kept by `[c for c in candidates if c[0] is not None]`. -/
def parsedCandidates (machines : List Machine) : List (Int × Machine) :=
  (deployedCandidates machines).filterMap (fun c => c.1.map (fun t => (t, c.2)))

/-- Stable insertion into a list sorted by decreasing first component: the
inserted element goes before the first element whose key is not larger, so
an earlier-inserted element keeps its place among equal keys. -/
def insertDesc (c : Int × Machine) : List (Int × Machine) → List (Int × Machine)
  | [] => [c]
  | b :: bs => if b.1 > c.1 then b :: insertDesc c bs else c :: b :: bs

/-- Models `candidates.sort(key=lambda x: x[0], reverse=True)`: a stable
sort by decreasing timestamp. -/
def sortDesc : List (Int × Machine) → List (Int × Machine)
  | [] => []
  | c :: cs => insertDesc c (sortDesc cs)

/-- `find_last_deployed_machine`: among Deployed machines with a parsed
timestamp take the head of the stable descending sort; otherwise fall back
to the first machine in listing order whose status is "deployed", or `none`. -/
def find_last_deployed_machine (machines : List Machine) : Option Machine :=
  match (sortDesc (parsedCandidates machines)).head? with
  | some c => some c.2
  | none => machines.find? statusDeployed

/-- The outcome of one connection attempt: a usable client, or one of the
transient failures the source catches (`ClientConnectorError`,
`ClientOSError`, `ClientResponseError`, `asyncio.TimeoutError`,
`ServerDisconnectedError`). -/
inductive ConnectOutcome where
  | success
  | connRefused
  | osErr
  | respErr
  | timedOut
  | disconnected
deriving DecidableEq

/-- An observable action or console/log message of the tool, in the order
it is emitted. -/
inductive Event where
  | attempt (n : Nat)
  | connFail (k : ConnectOutcome)
  | sleepSecs (n : Nat)
  | diag
  | exitProc (code : Nat)
  | queryNotFound
  | detail (sid : String)
  | errNotFound
  | alreadyDeployed (sid : String)
  | nonDeployable (sid status : String)
  | actionDeploy (sid : String) (os : Option String)
  | deployCall (sid : String) (os : Option String)
  | deployDone (sid : String)
  | releaseCall (sid : String)
  | waitStatus (sid expected : String) (result : Bool)
  | redeployDone (sid : String)
deriving DecidableEq

/-- Whether an event is a connection attempt. -/
def Event.isAttempt : Event → Bool
  | .attempt _ => true
  | _ => false

/-- Whether an event is a backoff sleep. -/
def Event.isSleep : Event → Bool
  | .sleepSecs _ => true
  | _ => false

/-- Whether an event is the remote deploy call `machine.deploy(...)`. -/
def Event.isDeployCall : Event → Bool
  | .deployCall _ _ => true
  | _ => false

/-- Whether an event is the remote release call `machine.release()`. -/
def Event.isReleaseCall : Event → Bool
  | .releaseCall _ => true
  | _ => false

/-- Whether an event is a reported error message. -/
def Event.isErrorLog : Event → Bool
  | .queryNotFound => true
  | .errNotFound => true
  | .nonDeployable _ _ => true
  | _ => false

/-- The loop of `connect_maas` with `k` attempts remaining, the current one
numbered `a`: try to connect, log the failure kind, sleep 2 seconds when
attempts remain, and after the last failure print the diagnostic and
`sys.exit(1)`.  Returns whether a client was obtained, with the trace. -/
def connectLoop (outcome : Nat → ConnectOutcome) : Nat → Nat → Bool × List Event
  | 0, _ => (false, [.diag, .exitProc 1])
  | k + 1, a =>
    if outcome a == .success then (true, [.attempt a])
    else
      let rest := connectLoop outcome k (a + 1)
      (rest.1, .attempt a :: .connFail (outcome a) ::
        ((if k != 0 then [.sleepSecs 2] else []) ++ rest.2))

/-- `connect_maas(maas_url, api_key, retries)`: `for attempt in
range(1, retries + 1)`. -/
def connect_maas (outcome : Nat → ConnectOutcome) (retries : Nat) : Bool × List Event :=
  connectLoop outcome retries 1

/-- One failed attempt's block of the expected all-failures trace: the
attempt, its failure log, and - between consecutive attempts only - the
fixed 2-second sleep. -/
def failBlock (outcome : Nat → ConnectOutcome) (last i : Nat) : List Event :=
  [.attempt i, .connFail (outcome i)] ++ (if i < last then [.sleepSecs 2] else [])

/-- The whole trace of a run whose `n` attempts all fail: the blocks for
attempts `1..n`, then the diagnostic and the non-zero process exit. -/
def specFailTrace (outcome : Nat → ConnectOutcome) (n : Nat) : List Event :=
  (List.range' 1 n).flatMap (failBlock outcome n) ++ [.diag, .exitProc 1]

/-- The polling loop of `wait_for_status`: `i` polls made so far, `elapsed`
the idealized wall-clock seconds since `start`.  While `elapsed < timeout`,
re-fetch the machine (the status observed by poll `i` is `statusAt i`),
return `true` on a case-insensitive match, otherwise sleep 10 seconds.
Returns the result and the number of polls made. -/
def waitGo (statusAt : Nat → String) (expected : String) (timeout : Int)
    (i : Nat) (elapsed : Int) : Bool × Nat :=
  if elapsed < timeout then
    if pyLower (statusAt i) == pyLower expected then (true, i + 1)
    else waitGo statusAt expected timeout (i + 1) (elapsed + 10)
  else (false, i)
termination_by (timeout - elapsed).toNat
decreasing_by
  simp_wf
  omega

/-- `wait_for_status(client, system_id, expected_status, timeout=900)`;
the remote machine is abstracted into the sequence of statuses its polls
observe. -/
def wait_for_status (statusAt : Nat → String) (expected : String)
    (timeout : Int) : Bool × Nat :=
  waitGo statusAt expected timeout 0 0

/-- The value `deploy_machine` receives as `machine_name`: the `deploy`
action passes a hostname string, but `redeploy_machine` passes the machine
object itself. -/
inductive NameArg where
  | host (h : String)
  | obj (m : Machine)
deriving DecidableEq

/-- Python's `m.hostname == machine_name`: comparing a `str` with a machine
object is always `False`. -/
def hostnameEq (h : String) : NameArg → Bool
  | .host s => h == s
  | .obj _ => false

/-- The statuses `deploy_machine` reports as non-deployable. -/
def nonDeployableSet : List String :=
  ["failed", "broken", "error", "unknown"]

/-- `deploy_machine(client, machine_name, os_distro)`: look the name up in
the machine list; report not-found; if already deployed only report the
machine's details; if in a non-deployable state report an error; otherwise
log the action, issue the remote deploy and log success. -/
def deploy_machine (machines : List Machine) (machine_name : NameArg)
    (os_distro : Option String) : List Event :=
  match machines.find? (fun m => hostnameEq m.hostname machine_name) with
  | none => [.errNotFound]
  | some machine =>
    let status := pyLower machine.status_name
    if status == "deployed" then [.alreadyDeployed machine.system_id]
    else if nonDeployableSet.contains status then
      [.nonDeployable machine.system_id machine.status_name]
    else
      [.actionDeploy machine.system_id os_distro,
       .deployCall machine.system_id os_distro,
       .deployDone machine.system_id]

/-- The remote world a single invocation sees: the machine list returned by
`client.machines.list()` (assumed stable for the invocation) and, for the
sequencer, the outcome of each `wait_for_status(system_id, expected)` call
(the polling loop itself is verified separately as `wait_for_status`). -/
structure Env where
  machines : List Machine
  waitOutcome : String → String → Bool

/-- `query_machine(client, hostname)`: find the machine by hostname, log
its details (or a not-found message). -/
def query_machine (env : Env) (hostname : String) : Option Machine × List Event :=
  match env.machines.find? (fun m => m.hostname == hostname) with
  | some m => (some m, [.detail m.system_id])
  | none => (none, [.queryNotFound])

/-- `release_machine(client, machine)`: release only when deployed. -/
def release_machine (machine : Machine) : List Event :=
  if pyLower machine.status_name == "deployed" then [.releaseCall machine.system_id]
  else []

/-- Python's `x or y` on an optional string: `None` and `""` fall through. -/
def pyOrStr (x : Option String) (dflt : String) : String :=
  match x with
  | some s => if s == "" then dflt else s
  | none => dflt

/-- The OS label `redeploy_machine` resolves:
`current_os = getattr(machine, "distro_series", None) or "focal"` then
`os_to_use = os_release or current_os`. -/
def resolveOs (os_release distro_series : Option String) : String :=
  pyOrStr os_release (pyOrStr distro_series "focal")

/-- `redeploy_machine(client, hostname, os_release)`: query the machine;
if deployed, release it and wait for "Ready" (proceeding regardless of the
wait's outcome); invoke the deploy step - passing the machine object where
`deploy_machine` expects a hostname - then wait for "Deployed" and log the
final message. -/
def redeploy_machine (env : Env) (hostname : String)
    (os_release : Option String) : List Event :=
  match query_machine env hostname with
  | (none, evs) => evs
  | (some machine, evs) =>
    let os_to_use := resolveOs os_release machine.distro_series
    evs
    ++ (if pyLower machine.status_name == "deployed" then
          release_machine machine
          ++ [.waitStatus machine.system_id "Ready"
                (env.waitOutcome machine.system_id "Ready")]
        else [])
    ++ deploy_machine env.machines (.obj machine) (some os_to_use)
    ++ [.waitStatus machine.system_id "Deployed"
          (env.waitOutcome machine.system_id "Deployed"),
        .redeployDone machine.system_id]

lemma connectLoop_all_fail (outcome : Nat → ConnectOutcome)
    (hfail : ∀ i, outcome i ≠ .success) (k : Nat) :
    ∀ a, connectLoop outcome k a =
      (false, (List.range' a k).flatMap (failBlock outcome (a + k - 1)) ++
        [.diag, .exitProc 1]) := by
  induction k with
  | zero =>
    intro a
    simp [connectLoop]
  | succ k ih =>
    intro a
    have hne : (outcome a == ConnectOutcome.success) = false :=
      beq_eq_false_iff_ne.mpr (hfail a)
    have hrange : List.range' a (k + 1) = a :: List.range' (a + 1) k :=
      List.range'_succ a k 1
    rw [connectLoop, hne]
    simp only [Bool.false_eq_true, if_false, ih (a + 1), hrange, List.flatMap_cons]
    have hlast : a + 1 + k - 1 = a + (k + 1) - 1 := by omega
    rw [hlast]
    cases k with
    | zero => simp [failBlock]
    | succ k2 =>
      have hlt : a < a + (k2 + 1 + 1) - 1 := by omega
      simp [failBlock, hlt]

lemma countP_failBlock_attempt (outcome : Nat → ConnectOutcome) (last i : Nat) :
    (failBlock outcome last i).countP Event.isAttempt = 1 := by
  by_cases h : i < last <;>
    simp [failBlock, h, Event.isAttempt, List.countP_cons, Event.isSleep]

lemma countP_failBlock_sleep (outcome : Nat → ConnectOutcome) (last i : Nat) :
    (failBlock outcome last i).countP Event.isSleep =
      if i < last then 1 else 0 := by
  by_cases h : i < last <;>
    simp [failBlock, h, Event.isAttempt, List.countP_cons, Event.isSleep]

lemma countP_flatMap_failBlock (outcome : Nat → ConnectOutcome) (last : Nat)
    (p : Event → Bool) (l : List Nat) :
    ((l.flatMap (failBlock outcome last)).countP p) =
      (l.map (fun i => (failBlock outcome last i).countP p)).sum := by
  induction l with
  | nil => simp
  | cons a l ih => simp [List.flatMap_cons, List.countP_append, ih]

lemma range'_count_lt (n : Nat) :
    ((List.range' 1 n).map (fun i => if i < n then 1 else 0)).sum = n - 1 := by
  induction n with
  | zero => simp
  | succ k ih =>
    rw [List.range'_1_concat]
    simp only [List.map_append, List.sum_append]
    have h1 : ∀ i ∈ List.range' 1 k, (if i < k + 1 then (1 : Nat) else 0) = 1 := by
      intro i hi
      have := List.mem_range'_1.mp hi
      have : i < k + 1 := by omega
      simp [this]
    rw [List.map_congr_left h1]
    simp
    omega

/-- Claim C2: with `max_attempts = N ≥ 1` and every attempt failing with a
transient error, `connect_maas` makes exactly the attempts `1..N` (no
`N+1`-th), sleeps a fixed 2 seconds between consecutive attempts but not
after the last, and terminates the process with exit status 1: its trace is
exactly `specFailTrace` (whose 2-second sleeps sit inside the blocks of
attempts `1..N-1` only), with `N` attempt events, `N - 1` sleep events and
the non-zero `exit` as its final event, and no client is returned. -/
theorem connect_maas_bounded_retry (outcome : Nat → ConnectOutcome) (N : Nat)
    (hN : 1 ≤ N) (hfail : ∀ i, outcome i ≠ .success) :
    connect_maas outcome N = (false, specFailTrace outcome N) ∧
    (connect_maas outcome N).2.countP Event.isAttempt = N ∧
    (connect_maas outcome N).2.countP Event.isSleep = N - 1 ∧
    (connect_maas outcome N).2.getLast? = some (.exitProc 1) := by
  have htr : connect_maas outcome N = (false, specFailTrace outcome N) := by
    rw [connect_maas, connectLoop_all_fail outcome hfail N 1, specFailTrace]
    have : 1 + N - 1 = N := by omega
    rw [this]
  refine ⟨htr, ?_, ?_, ?_⟩
  · rw [htr]
    simp only [specFailTrace, List.countP_append,
      countP_flatMap_failBlock]
    have h1 : ∀ i ∈ List.range' 1 N,
        (failBlock outcome N i).countP Event.isAttempt = 1 := by
      intro i _
      exact countP_failBlock_attempt outcome N i
    rw [List.map_congr_left h1]
    simp [Event.isAttempt, List.countP_cons]
  · rw [htr]
    simp only [specFailTrace, List.countP_append,
      countP_flatMap_failBlock]
    have h1 : ∀ i ∈ List.range' 1 N,
        (failBlock outcome N i).countP Event.isSleep =
          if i < N then 1 else 0 := by
      intro i _
      exact countP_failBlock_sleep outcome N i
    rw [List.map_congr_left h1, range'_count_lt]
    simp [Event.isSleep, List.countP_cons]
  · rw [htr]
    show (specFailTrace outcome N).getLast? = some (.exitProc 1)
    rw [specFailTrace]
    rw [show ((List.range' 1 N).flatMap (failBlock outcome N) ++
        [Event.diag, Event.exitProc 1]) =
        ((List.range' 1 N).flatMap (failBlock outcome N) ++ [Event.diag]) ++
        [Event.exitProc 1] by simp]
    exact List.getLast?_concat _

/-- Witness for claim C2 at `N = 3` with every attempt refused. -/
theorem connect_maas_bounded_retry_witness :
    connect_maas (fun _ => .connRefused) 3 =
      (false, specFailTrace (fun _ => .connRefused) 3) ∧
    (connect_maas (fun _ => .connRefused) 3).2.countP Event.isAttempt = 3 ∧
    (connect_maas (fun _ => .connRefused) 3).2.countP Event.isSleep = 2 ∧
    (connect_maas (fun _ => .connRefused) 3).2.getLast? = some (.exitProc 1) :=
  connect_maas_bounded_retry (fun _ => .connRefused) 3 (by decide)
    (fun _ h => ConnectOutcome.noConfusion h)

lemma waitGo_true (s : Nat → String) (e : String) (t : Int) (j i : Nat)
    (hj : (pyLower (s j) == pyLower e) = true) (hjt : 10 * (j : Int) < t)
    (hij : i ≤ j)
    (hfirst : ∀ k, i ≤ k → k < j → (pyLower (s k) == pyLower e) = false) :
    waitGo s e t i (10 * (i : Int)) = (true, j + 1) := by
  rcases Nat.eq_or_lt_of_le hij with heq | hlt2
  · subst heq
    rw [waitGo]
    simp [hjt, hj]
  · have hlt : (10 * (i : Int)) < t := by
      have hc : (i : Int) ≤ (j : Int) := by exact_mod_cast Nat.le_of_lt hlt2
      omega
    have hmi : (pyLower (s i) == pyLower e) = false := hfirst i le_rfl hlt2
    rw [waitGo]
    rw [if_pos hlt]
    simp only [hmi, Bool.false_eq_true, if_false]
    have h10 : (10 : Int) * (i : Int) + 10 = 10 * (((i + 1 : Nat) : Int)) := by
      push_cast
      ring
    rw [h10]
    exact waitGo_true s e t j (i + 1) hj hjt hlt2
      (fun k hk1 hk2 => hfirst k (by omega) hk2)
termination_by j - i

lemma waitGo_false (s : Nat → String) (e : String) (t : Int) (i : Nat)
    (hno : ∀ k, i ≤ k → 10 * (k : Int) < t →
      (pyLower (s k) == pyLower e) = false) :
    (waitGo s e t i (10 * (i : Int))).1 = false := by
  by_cases hlt : (10 * (i : Int)) < t
  · have hmi := hno i le_rfl hlt
    rw [waitGo]
    rw [if_pos hlt]
    simp only [hmi, Bool.false_eq_true, if_false]
    have h10 : (10 : Int) * (i : Int) + 10 = 10 * (((i + 1 : Nat) : Int)) := by
      push_cast
      ring
    rw [h10]
    exact waitGo_false s e t (i + 1) (fun k hk1 hk2 => hno k (by omega) hk2)
  · rw [waitGo, if_neg hlt]
termination_by (t - 10 * (i : Int)).toNat
decreasing_by omega

/-- Claim C3: `wait_for_status` returns `true` at the first poll whose
observed status matches the expected one under case-insensitive exact
comparison (having made `j + 1` polls when poll `j` is that first match
inside the timeout window), and returns `false` - a value, not an
exception - when no poll within the timeout window matches. -/
theorem wait_for_status_first_match (s : Nat → String) (e : String) (t : Int) :
    (∀ j, (pyLower (s j) == pyLower e) = true → 10 * (j : Int) < t →
      (∀ k, k < j → (pyLower (s k) == pyLower e) = false) →
      wait_for_status s e t = (true, j + 1)) ∧
    ((∀ k : Nat, 10 * (k : Int) < t → (pyLower (s k) == pyLower e) = false) →
      (wait_for_status s e t).1 = false) := by
  constructor
  · intro j hj hjt hfirst
    have h := waitGo_true s e t j 0 hj hjt (Nat.zero_le j)
      (fun k _ hk => hfirst k hk)
    simpa [wait_for_status] using h
  · intro hno
    have h := waitGo_false s e t 0 (fun k _ hk => hno k hk)
    simpa [wait_for_status] using h

/-- Witness for claim C3: the status sequence Deploying, Deploying, Ready
matches "ready" first at poll 2 within a 900-second timeout, and a sequence
that never shows the status runs a 25-second timeout out with result
`false`. -/
theorem wait_for_status_first_match_witness :
    wait_for_status (fun i => if i == 2 then "Ready" else "Deploying")
      "ready" 900 = (true, 3) ∧
    (wait_for_status (fun _ => "Deploying") "ready" 25).1 = false := by
  constructor
  · refine (wait_for_status_first_match
      (fun i => if i == 2 then "Ready" else "Deploying") "ready" 900).1 2
      (by decide) (by decide) ?_
    intro k hk
    interval_cases k <;> decide
  · refine (wait_for_status_first_match
      (fun _ => "Deploying") "ready" 25).2 ?_
    intro k _
    show (pyLower "Deploying" == pyLower "ready") = false
    decide

/-- Claim C10: with a timeout that is zero or negative, `wait_for_status`
returns `false` at once, without a single poll of the machine's state. -/
theorem wait_for_status_nonpositive_timeout (s : Nat → String) (e : String)
    (t : Int) (ht : t ≤ 0) : wait_for_status s e t = (false, 0) := by
  rw [wait_for_status, waitGo]
  have h : ¬ ((0 : Int) < t) := by omega
  rw [if_neg h]

/-- Witness for claim C10 at timeout 0. -/
theorem wait_for_status_nonpositive_timeout_witness :
    wait_for_status (fun _ => "Ready") "ready" 0 = (false, 0) :=
  wait_for_status_nonpositive_timeout (fun _ => "Ready") "ready" 0 (by decide)

lemma extractTsLoop_none_eq (m : Machine) (attrs : List TsAttr) :
    extractTsLoop m attrs none = attrs.findSome? (tsOfAttr m) := by
  induction attrs with
  | nil => simp [extractTsLoop, List.findSome?]
  | cons a rest ih =>
    cases hv : getTsAttr m a with
    | none => simp [extractTsLoop, List.findSome?_cons, tsOfAttr, hv, ih]
    | some v =>
      by_cases ht : pyTruthyVal v
      · cases hp : parseVal v with
        | some t =>
          simp [extractTsLoop, List.findSome?_cons, tsOfAttr, hv, ht, hp]
        | none =>
          simp [extractTsLoop, List.findSome?_cons, tsOfAttr, hv, ht, hp, ih]
      · simp [extractTsLoop, List.findSome?_cons, tsOfAttr, hv, ht, ih]

/-- Claim C6: timestamp extraction probes the fixed, ordered attribute
list; an absent or falsy attribute is skipped and a parse failure is
swallowed, moving on to the next attribute name, so the machine's
timestamp is the first attribute contribution that parses successfully
(`tsOfAttr` is `none` exactly when the attribute is absent, empty/falsy,
or fails to parse). -/
theorem extractTs_attribute_order :
    (∀ m : Machine, extractTs m = timestamp_attrs.findSome? (tsOfAttr m)) ∧
    timestamp_attrs = [.deploymentStartedAt, .deployedAt,
      .deploymentFinishedAt, .commissioningFinishedAt, .lastUpdated,
      .updatedAt, .createdAt, .created] :=
  ⟨fun m => extractTsLoop_none_eq m timestamp_attrs, rfl⟩

lemma sortDesc_head_max (l : List (Int × Machine)) (hne : l ≠ []) :
    ∃ c l1 l2, (sortDesc l).head? = some c ∧ l = l1 ++ c :: l2 ∧
      (∀ b ∈ l1, b.1 < c.1) ∧ (∀ b ∈ l2, b.1 ≤ c.1) := by
  induction l with
  | nil => exact absurd rfl hne
  | cons a l ih =>
    cases l with
    | nil =>
      exact ⟨a, [], [], by simp [sortDesc, insertDesc], rfl,
        by simp, by simp⟩
    | cons b2 l2tail =>
      obtain ⟨c, l1, l2, hh, hsplit, h1, h2⟩ := ih (by simp)
      obtain ⟨tail, htail⟩ : ∃ tail, sortDesc (b2 :: l2tail) = c :: tail := by
        cases hs : sortDesc (b2 :: l2tail) with
        | nil => rw [hs] at hh; simp at hh
        | cons x t =>
          rw [hs] at hh
          simp only [List.head?_cons, Option.some.injEq] at hh
          exact ⟨t, by rw [hh]⟩
      have hsd : sortDesc (a :: b2 :: l2tail) =
          insertDesc a (sortDesc (b2 :: l2tail)) := rfl
      by_cases hgt : c.1 > a.1
      · refine ⟨c, a :: l1, l2, ?_, by simp [hsplit], ?_, h2⟩
        · rw [hsd, htail]
          simp [insertDesc, hgt]
        · intro b hb
          rcases List.mem_cons.mp hb with hb | hb
          · rw [hb]; exact hgt
          · exact h1 b hb
      · push_neg at hgt
        refine ⟨a, [], b2 :: l2tail, ?_, rfl, by simp, ?_⟩
        · rw [hsd, htail]
          simp only [insertDesc]
          rw [if_neg (by omega)]
          rfl
        · intro b hb
          rw [hsplit] at hb
          rcases List.mem_append.mp hb with hb | hb
          · exact le_of_lt (lt_of_lt_of_le (h1 b hb) hgt)
          · rcases List.mem_cons.mp hb with hb | hb
            · rw [hb]; exact hgt
            · exact le_trans (h2 b hb) hgt

lemma parsedCandidates_extract {machines : List Machine} {c : Int × Machine}
    (hc : c ∈ parsedCandidates machines) : extractTs c.2 = some c.1 := by
  rw [parsedCandidates, List.mem_filterMap] at hc
  obtain ⟨p, hp, hg⟩ := hc
  rw [deployedCandidates, List.mem_map] at hp
  obtain ⟨m, _, rfl⟩ := hp
  simp only [Option.map_eq_some'] at hg
  obtain ⟨t, hts, hpair⟩ := hg
  rw [← hpair]
  exact hts

/-- The machine of the spec's example `A`: Deployed, created
2023-01-01T00:00:00. -/
def mA : Machine :=
  { hostname := "A"
    system_id := "idA"
    status_name := "Deployed"
    created := some (.str "2023-01-01T00:00:00") }

/-- The machine of the spec's example `B`: Deployed, created
2024-06-01T00:00:00. -/
def mB : Machine :=
  { hostname := "B"
    system_id := "idB"
    status_name := "Deployed"
    created := some (.str "2024-06-01T00:00:00") }

/-- The machine of the spec's example `C`: Ready, created
2025-01-01T00:00:00. -/
def mC : Machine :=
  { hostname := "C"
    system_id := "idC"
    status_name := "Ready"
    created := some (.str "2025-01-01T00:00:00") }

/-- Claim C4: the selector's candidates are exactly the Deployed machines
(case-insensitively) with a parsed timestamp, in listing order; the machine
returned carries the maximum timestamp and every candidate before it is
strictly older (ties broken stably by input order), every one after it no
newer.  In particular, on the spec's example A/B/C it returns B. -/
theorem find_last_deployed_max :
    (∀ machines : List Machine, parsedCandidates machines ≠ [] →
      ∃ t m l1 l2, find_last_deployed_machine machines = some m ∧
        extractTs m = some t ∧
        parsedCandidates machines = l1 ++ (t, m) :: l2 ∧
        (∀ c ∈ l1, c.1 < t) ∧ (∀ c ∈ l2, c.1 ≤ t)) ∧
    find_last_deployed_machine [mA, mB, mC] = some mB := by
  constructor
  · intro machines hne
    obtain ⟨c, l1, l2, hh, hsplit, h1, h2⟩ := sortDesc_head_max _ hne
    have hc : c ∈ parsedCandidates machines := by
      rw [hsplit]
      simp
    refine ⟨c.1, c.2, l1, l2, ?_, parsedCandidates_extract hc, ?_, h1, h2⟩
    · rw [find_last_deployed_machine, hh]
    · simpa using hsplit
  · decide

/-- Witness for claim C4 at the spec's example machine list. -/
theorem find_last_deployed_max_witness :
    parsedCandidates [mA, mB, mC] ≠ [] ∧
    (∃ t m l1 l2, find_last_deployed_machine [mA, mB, mC] = some m ∧
      extractTs m = some t ∧
      parsedCandidates [mA, mB, mC] = l1 ++ (t, m) :: l2 ∧
      (∀ c ∈ l1, c.1 < t) ∧ (∀ c ∈ l2, c.1 ≤ t)) :=
  ⟨by decide, find_last_deployed_max.1 [mA, mB, mC] (by decide)⟩

/-- Claim C5: when no Deployed machine yields a parseable timestamp, the
selector returns the first machine in listing order whose status is
"deployed" case-insensitively, and `none` when there is no such machine
(`List.find?` is exactly that). -/
theorem find_last_deployed_fallback (machines : List Machine)
    (hnone : ∀ m ∈ machines, statusDeployed m = true → extractTs m = none) :
    find_last_deployed_machine machines = machines.find? statusDeployed := by
  have hparsed : parsedCandidates machines = [] := by
    rw [parsedCandidates, List.filterMap_eq_nil_iff]
    intro c hc
    rw [deployedCandidates, List.mem_map] at hc
    obtain ⟨m, hm, rfl⟩ := hc
    rw [List.mem_filter] at hm
    simp [hnone m hm.1 hm.2]
  rw [find_last_deployed_machine, hparsed]
  rfl

/-- A Deployed machine whose only timestamp attribute does not parse. -/
def mD1 : Machine :=
  { hostname := "D1"
    system_id := "idD1"
    status_name := "Deployed"
    created := some (.str "not-a-date") }

/-- A Deployed machine with no timestamp attribute at all. -/
def mD2 : Machine :=
  { hostname := "D2"
    system_id := "idD2"
    status_name := "deployed" }

/-- A Ready machine, newer than both Deployed ones. -/
def mR : Machine :=
  { hostname := "R"
    system_id := "idR"
    status_name := "Ready"
    created := some (.str "2025-01-01T00:00:00") }

/-- Witness for claim C5: all Deployed machines unparseable, so the first
Deployed machine in listing order is returned. -/
theorem find_last_deployed_fallback_witness :
    find_last_deployed_machine [mD1, mD2, mR] =
      [mD1, mD2, mR].find? statusDeployed ∧
    [mD1, mD2, mR].find? statusDeployed = some mD1 :=
  ⟨find_last_deployed_fallback [mD1, mD2, mR] (by decide), by decide⟩

lemma deploy_machine_obj (machines : List Machine) (m : Machine)
    (os : Option String) :
    deploy_machine machines (.obj m) os = [.errNotFound] := by
  have h : machines.find? (fun x => hostnameEq x.hostname (.obj m)) = none :=
    List.find?_eq_none.mpr (fun x _ => by simp [hostnameEq])
  rw [deploy_machine, h]

/-- A machine currently Deployed, for demonstrating the redeploy path. -/
def mDeployed : Machine :=
  { hostname := "m1"
    system_id := "id1"
    status_name := "Deployed" }

/-- Environment of the redeploy demonstration: one Deployed machine whose
status waits all time out. -/
def envC1 : Env :=
  { machines := [mDeployed]
    waitOutcome := fun _ _ => false }

/-- Claim C1 (code bug): `redeploy_machine` never issues the remote deploy
call - it passes the machine object where `deploy_machine` expects a
hostname string, so the lookup inside `deploy_machine` cannot match and
only a not-found error is logged.  On a Deployed machine the release and
the Ready wait do happen first, and the sequencer proceeds past the failed
wait to the (degenerate) deploy step, the Deployed wait and the success
log, as the concrete trace shows. -/
theorem redeploy_never_issues_deploy :
    (∀ (env : Env) (hostname : String) (os : Option String),
      (redeploy_machine env hostname os).all
        (fun e => !(Event.isDeployCall e)) = true) ∧
    redeploy_machine envC1 "m1" none =
      [.detail "id1", .releaseCall "id1", .waitStatus "id1" "Ready" false,
       .errNotFound, .waitStatus "id1" "Deployed" false,
       .redeployDone "id1"] := by
  constructor
  · intro env hostname os
    cases hfind : env.machines.find? (fun m => m.hostname == hostname) with
    | none => simp [redeploy_machine, query_machine, hfind, Event.isDeployCall]
    | some m =>
      by_cases hdep : (pyLower m.status_name == "deployed") = true
      · simp [redeploy_machine, query_machine, hfind, deploy_machine_obj,
          hdep, release_machine, Event.isDeployCall, List.all_append]
      · simp [redeploy_machine, query_machine, hfind, deploy_machine_obj,
          hdep, release_machine, Event.isDeployCall, List.all_append]
  · decide

/-- A machine in the non-deployable state Failed. -/
def mFailed : Machine :=
  { hostname := "f1"
    system_id := "idF"
    status_name := "Failed" }

/-- Environment with one Failed machine. -/
def envC7 : Env :=
  { machines := [mFailed]
    waitOutcome := fun _ _ => true }

/-- Whether an event is the non-deployable-state error report of
`deploy_machine`. -/
def Event.isNonDeployableReport : Event → Bool
  | .nonDeployable _ _ => true
  | _ => false

/-- Claim C7 (code bug): a redeploy request on a machine in a
non-deployable state does not behave as claimed.  The non-deployable check
of `deploy_machine` is unreachable from `redeploy_machine` - the machine
object is passed where a hostname string is expected, so the lookup fails
first - hence no redeploy trace ever contains the non-deployable report
(first conjunct).  On the concrete Failed machine the trace shows what
happens instead: a not-found error is logged, release and deploy are
indeed not invoked, but the sequencer does not abort - it proceeds to the
"Deployed" wait and ends with the success log. -/
theorem redeploy_failed_machine_trace :
    (∀ (env : Env) (hostname : String) (os : Option String),
      (redeploy_machine env hostname os).all
        (fun e => !(Event.isNonDeployableReport e)) = true) ∧
    redeploy_machine envC7 "f1" none =
      [.detail "idF", .errNotFound, .waitStatus "idF" "Deployed" true,
       .redeployDone "idF"] ∧
    (redeploy_machine envC7 "f1" none).all
      (fun e => !(Event.isReleaseCall e) && !(Event.isDeployCall e)) = true := by
  refine ⟨?_, by decide, by decide⟩
  intro env hostname os
  cases hfind : env.machines.find? (fun m => m.hostname == hostname) with
  | none =>
    simp [redeploy_machine, query_machine, hfind, Event.isNonDeployableReport]
  | some m =>
    by_cases hdep : (pyLower m.status_name == "deployed") = true
    · simp [redeploy_machine, query_machine, hfind, deploy_machine_obj,
        hdep, release_machine, Event.isNonDeployableReport, List.all_append]
    · simp [redeploy_machine, query_machine, hfind, deploy_machine_obj,
        hdep, release_machine, Event.isNonDeployableReport, List.all_append]

/-- Claim C8 (amended): the OS label `redeploy_machine` passes to its
deploy step is `resolveOs os_release distro_series`: the explicit `--os`
argument when given and non-empty, otherwise the machine's distro label
when present and non-empty, otherwise the hard-coded "focal" (an empty
`--os` string is treated by `x or y` exactly like an absent one). -/
theorem redeploy_os_resolution :
    (∀ (env : Env) (hostname : String) (os : Option String) (m : Machine),
      env.machines.find? (fun x => x.hostname == hostname) = some m →
      ∃ pre post, redeploy_machine env hostname os =
        pre ++ deploy_machine env.machines (.obj m)
          (some (resolveOs os m.distro_series)) ++ post) ∧
    (∀ (s : String) (d : Option String), s ≠ "" → resolveOs (some s) d = s) ∧
    (∀ d : String, d ≠ "" →
      resolveOs none (some d) = d ∧ resolveOs (some "") (some d) = d) ∧
    (∀ o : Option String, o = none ∨ o = some "" →
      resolveOs o none = "focal" ∧ resolveOs o (some "") = "focal") := by
  refine ⟨?_, ?_, ?_, ?_⟩
  · intro env hostname os m hfind
    refine ⟨[.detail m.system_id] ++
      (if pyLower m.status_name == "deployed" then
        release_machine m ++
          [.waitStatus m.system_id "Ready" (env.waitOutcome m.system_id "Ready")]
      else []),
      [.waitStatus m.system_id "Deployed" (env.waitOutcome m.system_id "Deployed"),
       .redeployDone m.system_id], ?_⟩
    simp [redeploy_machine, query_machine, hfind]
  · intro s d hs
    have h : (s == "") = false := beq_eq_false_iff_ne.mpr hs
    simp [resolveOs, pyOrStr, h]
  · intro d hd
    have h : (d == "") = false := beq_eq_false_iff_ne.mpr hd
    exact ⟨by simp [resolveOs, pyOrStr, h], by simp [resolveOs, pyOrStr, h]⟩
  · rintro o (rfl | rfl) <;>
      exact ⟨by simp [resolveOs, pyOrStr], by simp [resolveOs, pyOrStr]⟩

/-- Counterexample to claim C8 as stated: with the explicit argument given
as the empty string and a machine whose distro label is "jammy", the label
passed to the deploy step is "jammy", not the given argument "". -/
theorem redeploy_os_empty_arg_counterexample :
    resolveOs (some "") (some "jammy") = "jammy" ∧
    resolveOs (some "") (some "jammy") ≠ "" := by
  exact ⟨by decide, by decide⟩

/-- A Ready machine carrying the distro label "jammy". -/
def mJ : Machine :=
  { hostname := "j1"
    system_id := "idJ"
    status_name := "Ready"
    distro_series := some "jammy" }

/-- Environment with the one Ready "jammy" machine. -/
def envC8 : Env :=
  { machines := [mJ]
    waitOutcome := fun _ _ => true }

/-- Witness for claim C8: the deploy step of a concrete redeploy receives
the resolved label; with no `--os` the distro label "jammy" wins, with
`--os focal` the argument wins. -/
theorem redeploy_os_resolution_witness :
    (∃ pre post, redeploy_machine envC8 "j1" none =
      pre ++ deploy_machine envC8.machines (.obj mJ)
        (some (resolveOs none mJ.distro_series)) ++ post) ∧
    resolveOs none (some "jammy") = "jammy" ∧
    resolveOs (some "focal") (some "jammy") = "focal" :=
  ⟨redeploy_os_resolution.1 envC8 "j1" none mJ (by decide),
   (redeploy_os_resolution.2.2.1 "jammy" (by decide)).1,
   redeploy_os_resolution.2.1 "focal" (some "jammy") (by decide)⟩

/-- Claim C9: the standalone deploy action on a machine that is already
deployed (case-insensitively) emits exactly one informational message with
the machine's details - in particular no remote deploy call and no other
remote action. -/
theorem deploy_machine_already_deployed (machines : List Machine)
    (hostname : String) (os : Option String) (m : Machine)
    (hfind : machines.find? (fun x => hostnameEq x.hostname (.host hostname)) =
      some m)
    (hdep : pyLower m.status_name = "deployed") :
    deploy_machine machines (.host hostname) os =
      [.alreadyDeployed m.system_id] ∧
    (deploy_machine machines (.host hostname) os).all
      (fun e => !(Event.isDeployCall e)) = true := by
  have h1 : deploy_machine machines (.host hostname) os =
      [.alreadyDeployed m.system_id] := by
    simp [deploy_machine, hfind, hdep]
  exact ⟨h1, by rw [h1]; simp [Event.isDeployCall]⟩

/-- A machine already deployed, with its distro label. -/
def mDep : Machine :=
  { hostname := "d1"
    system_id := "idD"
    status_name := "Deployed"
    distro_series := some "focal" }

/-- Witness for claim C9 on a concrete already-deployed machine. -/
theorem deploy_machine_already_deployed_witness :
    deploy_machine [mDep] (.host "d1") (some "jammy") =
      [.alreadyDeployed "idD"] ∧
    (deploy_machine [mDep] (.host "d1") (some "jammy")).all
      (fun e => !(Event.isDeployCall e)) = true :=
  deploy_machine_already_deployed [mDep] "d1" (some "jammy") mDep
    (by decide) (by decide)

end BuilderReimage
